import Mathlib

/-!
Verification of the adaptive-learning core of the repository.

Shallow embedding of:
* `sat-irt-model.js` — the 2PL item-response-theory ability estimator
  (`SATIRTModel`);
* `sat-reinforcement-learning.js` — the contextual bandit / Thompson-sampling
  question selector (`SATReinforcementLearning`);
* the BKT quick mastery update documented in `docs/BKT_FIREBASE_SUMMARY.md`
  (`updateMasteryScore`).

Modelling conventions: JavaScript numbers are modelled as real numbers `ℝ`
(counters, which are only ever incremented from 0 by 1, as `ℕ`); the
per-domain JavaScript object maps become functions `String → Option _`;
`localStorage` persistence and `console` logging are outside the core per the
spec and are not modelled; `Math.random`-driven choices inside
`recommendQuestions` are abstracted as oracle parameters supplying the drawn
topic and the drawn index for each slot, which the structural claims about a
batch do not depend on.
-/

open Real

/-- Per-domain ability state, as initialised in the `SATIRTModel` constructor:
`{ theta, attempts, correct }`. -/
structure DomainState where
  theta : ℝ
  attempts : ℕ
  correct : ℕ

/-- The eight SAT domains fixed in the `SATIRTModel` constructor. -/
def satDomainNames : List String :=
  ["Algebra", "Advanced Math", "Problem-Solving and Data Analysis",
   "Geometry and Trigonometry", "Craft and Structure", "Information and Ideas",
   "Expression of Ideas", "Standard English Conventions"]

/-- The mutable state of `SATIRTModel`: the per-domain map `this.domains`. -/
structure SATIRTModel where
  domains : String → Option DomainState

/-- A freshly constructed `SATIRTModel`: every configured domain starts at
`{ theta: 0, attempts: 0, correct: 0 }`; all other keys are absent. -/
noncomputable def initialModel : SATIRTModel :=
  ⟨fun d => if d ∈ satDomainNames then some ⟨0, 0, 0⟩ else none⟩

/-- Constant `this.defaultDiscrimination = 1.0`. -/
noncomputable def defaultDiscrimination : ℝ := 1.0

/-- Constant `this.learningRate = 0.3`. -/
noncomputable def learningRate : ℝ := 0.3

/-- Constant `this.difficultyMap = { E: -1.0, M: 0.0, H: 1.5 }`. -/
noncomputable def difficultyMap : String → Option ℝ := fun difficulty =>
  if difficulty = "E" then some (-1.0)
  else if difficulty = "M" then some 0.0
  else if difficulty = "H" then some 1.5
  else none

/-- Method `probabilityCorrect(theta, a, b) = 1 / (1 + exp(-a (theta - b)))`
(the 2PL model, `sat-irt-model.js` line 54). -/
noncomputable def probabilityCorrect (theta discrimination difficulty : ℝ) : ℝ :=
  1 / (1 + Real.exp (-discrimination * (theta - difficulty)))

/-- Method `updateAbility(domain, correct, difficulty, discrimination)`
(`sat-irt-model.js` lines 67-93).  An unknown domain is a warn-and-return
no-op.  `this.difficultyMap[difficulty] || 0` is modelled by
`Option.getD _ 0`: the only falsy value in the map is `M ↦ 0.0`, for which
`|| 0` also yields `0`. -/
noncomputable def updateAbility (m : SATIRTModel) (domain : String) (correct : Bool)
    (difficulty : String) (discrimination : ℝ) : SATIRTModel :=
  match m.domains domain with
  | none => m
  | some st =>
    let b := (difficultyMap difficulty).getD 0
    let p := probabilityCorrect st.theta discrimination b
    let gradient := discrimination * ((if correct then 1 else 0) - p)
    let newTheta := st.theta + learningRate * gradient
    ⟨fun d => if d = domain then
        some ⟨max (-3) (min 3 newTheta), st.attempts + 1,
              if correct then st.correct + 1 else st.correct⟩
      else m.domains d⟩

/-- Method `getAbility(domain)`: `this.domains[domain]?.theta || 0`
(for a present domain the `|| 0` only replaces a falsy `theta = 0` by `0`,
so the lookup is exact). -/
noncomputable def getAbility (m : SATIRTModel) (domain : String) : ℝ :=
  match m.domains domain with
  | none => 0
  | some st => st.theta

/-- One `updateAbility` call with explicit arguments, for reasoning about
call sequences. -/
structure AbilityCall where
  domain : String
  correct : Bool
  difficulty : String
  discrimination : ℝ

/-- Fold a sequence of `updateAbility` calls over a model. -/
noncomputable def runAbilityCalls (m : SATIRTModel) (calls : List AbilityCall) : SATIRTModel :=
  calls.foldl (fun m c => updateAbility m c.domain c.correct c.difficulty c.discrimination) m

/-- The per-domain state invariant of the IRT model claimed by the spec. -/
def AbilityInvariant (m : SATIRTModel) : Prop :=
  ∀ d st, m.domains d = some st →
    -3 ≤ st.theta ∧ st.theta ≤ 3 ∧ 0 ≤ st.attempts ∧ 0 ≤ st.correct ∧
      st.correct ≤ st.attempts

lemma updateAbility_none {m : SATIRTModel} {domain : String} (correct : Bool)
    (difficulty : String) (discrimination : ℝ)
    (h : m.domains domain = none) :
    updateAbility m domain correct difficulty discrimination = m := by
  unfold updateAbility
  rw [h]

lemma updateAbility_some {m : SATIRTModel} {domain : String} {st : DomainState}
    (correct : Bool) (difficulty : String) (discrimination : ℝ)
    (h : m.domains domain = some st) :
    updateAbility m domain correct difficulty discrimination =
      ⟨fun d => if d = domain then
          some ⟨max (-3) (min 3 (st.theta + learningRate *
                  (discrimination * ((if correct then 1 else 0) -
                    probabilityCorrect st.theta discrimination
                      ((difficultyMap difficulty).getD 0))))),
                st.attempts + 1,
                if correct then st.correct + 1 else st.correct⟩
        else m.domains d⟩ := by
  unfold updateAbility
  rw [h]

lemma initialModel_abilityInvariant : AbilityInvariant initialModel := by
  intro d st h
  simp only [initialModel] at h
  split at h
  · cases h
    norm_num
  · cases h

lemma updateAbility_abilityInvariant {m : SATIRTModel} (hm : AbilityInvariant m)
    (domain : String) (correct : Bool) (difficulty : String) (discrimination : ℝ) :
    AbilityInvariant (updateAbility m domain correct difficulty discrimination) := by
  cases h : m.domains domain with
  | none =>
    rw [updateAbility_none correct difficulty discrimination h]
    exact hm
  | some st0 =>
    rw [updateAbility_some correct difficulty discrimination h]
    intro d st hd
    simp only at hd
    by_cases hdd : d = domain
    · rw [if_pos hdd] at hd
      cases hd
      obtain ⟨-, -, -, -, hc⟩ := hm domain st0 h
      refine ⟨le_max_left _ _, max_le (by norm_num) (min_le_left _ _),
        Nat.zero_le _, Nat.zero_le _, ?_⟩
      cases correct
      · simpa using Nat.le_succ_of_le hc
      · simpa using Nat.succ_le_succ hc
    · rw [if_neg hdd] at hd
      exact hm d st hd

lemma runAbilityCalls_abilityInvariant :
    ∀ (calls : List AbilityCall) (m : SATIRTModel), AbilityInvariant m →
      AbilityInvariant (runAbilityCalls m calls) := by
  intro calls
  induction calls with
  | nil => intro m hm; exact hm
  | cons c cs ih =>
    intro m hm
    exact ih _ (updateAbility_abilityInvariant hm c.domain c.correct c.difficulty
      c.discrimination)

/-- C1: for every sequence of `updateAbility` calls starting from a freshly
constructed model, after every call each domain's state satisfies
`theta ∈ [-3, 3]`, `attempts ≥ 0`, `correct ≥ 0` and `correct ≤ attempts`. -/
theorem c1_ability_invariant (calls : List AbilityCall) :
    AbilityInvariant (runAbilityCalls initialModel calls) :=
  runAbilityCalls_abilityInvariant calls initialModel initialModel_abilityInvariant

lemma initialModel_Algebra : initialModel.domains "Algebra" = some ⟨0, 0, 0⟩ := by
  simp [initialModel, satDomainNames]

lemma difficultyMap_M : difficultyMap "M" = some 0.0 := by
  simp [difficultyMap]

lemma probabilityCorrect_zero : probabilityCorrect 0 1 ((difficultyMap "M").getD 0) = 1 / 2 := by
  rw [difficultyMap_M]
  show probabilityCorrect 0 1 0.0 = 1 / 2
  unfold probabilityCorrect
  norm_num

/-- The model after one correct Medium answer on Algebra with `a = 1`. -/
lemma updateAbility_correct_medium :
    (updateAbility initialModel "Algebra" true "M" 1).domains "Algebra" =
      some ⟨0.15, 1, 1⟩ := by
  rw [updateAbility_some true "M" 1 initialModel_Algebra]
  norm_num [probabilityCorrect_zero, learningRate, min_def, max_def]

/-- The model after one incorrect Medium answer on Algebra with `a = 1`. -/
lemma updateAbility_incorrect_medium :
    (updateAbility initialModel "Algebra" false "M" 1).domains "Algebra" =
      some ⟨-0.15, 1, 0⟩ := by
  rw [updateAbility_some false "M" 1 initialModel_Algebra]
  norm_num [probabilityCorrect_zero, learningRate, min_def, max_def]

/-- C2: on a known domain, `updateAbility` computes
`p = probabilityCorrect(theta, a, b)` with `b` from the difficulty map,
gradient `g = a·((correct?1:0) − p)`, sets
`theta ← clamp(theta + 0.3·g, −3, 3)`, increments `attempts`, and increments
`correct` exactly when the answer was right; in particular, from `theta = 0`
a correct Medium answer with `a = 1.0` yields `theta = 0.15` and an incorrect
one yields `theta = −0.15`. -/
theorem c2_updateAbility_formula :
    (∀ (m : SATIRTModel) (domain : String) (st : DomainState) (correct : Bool)
        (difficulty : String) (a : ℝ), m.domains domain = some st →
      (updateAbility m domain correct difficulty a).domains domain =
        some ⟨max (-3) (min 3 (st.theta + learningRate *
                (a * ((if correct then 1 else 0) -
                  probabilityCorrect st.theta a ((difficultyMap difficulty).getD 0))))),
              st.attempts + 1,
              if correct then st.correct + 1 else st.correct⟩) ∧
    getAbility (updateAbility initialModel "Algebra" true "M" 1) "Algebra" = 0.15 ∧
    getAbility (updateAbility initialModel "Algebra" false "M" 1) "Algebra" = -0.15 := by
  refine ⟨?_, ?_, ?_⟩
  · intro m domain st correct difficulty a h
    rw [updateAbility_some correct difficulty a h]
    simp
  · unfold getAbility
    rw [updateAbility_correct_medium]
  · unfold getAbility
    rw [updateAbility_incorrect_medium]

/-- Witness for C2: the general formula instantiated at the fresh model,
domain Algebra, a correct Medium answer with `a = 1`. -/
theorem c2_witness :
    (updateAbility initialModel "Algebra" true "M" 1).domains "Algebra" =
      some ⟨max (-3) (min 3 ((0 : ℝ) + learningRate *
              (1 * ((1 : ℝ) -
                probabilityCorrect 0 1 ((difficultyMap "M").getD 0))))),
            1, 1⟩ :=
  c2_updateAbility_formula.1 initialModel "Algebra" ⟨0, 0, 0⟩ true "M" 1
    initialModel_Algebra

/-- C10: on a known domain, a difficulty label outside the configured map
`{E, M, H}` is not rejected: `updateAbility` behaves exactly as if the
question were Medium (difficulty parameter `b = 0`), and still increments
`attempts`. -/
theorem c10_unknown_difficulty (m : SATIRTModel) (domain : String) (st : DomainState)
    (correct : Bool) (difficulty : String) (a : ℝ)
    (h : m.domains domain = some st) (hd : difficultyMap difficulty = none) :
    updateAbility m domain correct difficulty a = updateAbility m domain correct "M" a ∧
    ∃ st2, (updateAbility m domain correct difficulty a).domains domain = some st2 ∧
      st2.attempts = st.attempts + 1 := by
  have hb : (difficultyMap difficulty).getD 0 = (difficultyMap "M").getD 0 := by
    rw [hd, difficultyMap_M]
    norm_num
  constructor
  · rw [updateAbility_some correct difficulty a h, updateAbility_some correct "M" a h]
    simp only [hb]
  · rw [updateAbility_some correct difficulty a h]
    exact ⟨⟨max (-3) (min 3 (st.theta + learningRate *
              (a * ((if correct then 1 else 0) -
                probabilityCorrect st.theta a ((difficultyMap difficulty).getD 0))))),
            st.attempts + 1,
            if correct then st.correct + 1 else st.correct⟩, by simp, rfl⟩

/-- Witness for C10: the unknown label `"X"` on the fresh model's Algebra
domain acts exactly like `"M"` and still bumps the attempt counter. -/
theorem c10_witness :
    updateAbility initialModel "Algebra" true "X" 1 =
      updateAbility initialModel "Algebra" true "M" 1 ∧
    ∃ st2, (updateAbility initialModel "Algebra" true "X" 1).domains "Algebra" =
      some st2 ∧ st2.attempts = 0 + 1 :=
  c10_unknown_difficulty initialModel "Algebra" ⟨0, 0, 0⟩ true "X" 1
    initialModel_Algebra (by simp [difficultyMap])

/-- Method `thetaToPercentile(theta)` (`sat-irt-model.js` lines 139-147): the
standard-normal CDF approximation; `Math.round(x)` is `⌊x + 1/2⌋`, which is
Mathlib's `round`. -/
noncomputable def thetaToPercentile (theta : ℝ) : ℤ :=
  let t := 1 / (1 + 0.2316419 * |theta|)
  let d := 0.3989423 * Real.exp (-theta * theta / 2)
  let p := d * t * (0.3193815 + t * (-0.3565638 + t * (1.781478 + t *
    (-1.821256 + t * 1.330274))))
  let percentile := if theta > 0 then 1 - p else p
  round (percentile * 100)

/-- Method `thetaToLevel(theta)` (`sat-irt-model.js` lines 152-158). -/
noncomputable def thetaToLevel (theta : ℝ) : String :=
  if theta ≥ 2.0 then "Advanced"
  else if theta ≥ 1.0 then "Proficient"
  else if theta ≥ 0 then "Developing"
  else if theta ≥ -1.0 then "Basic"
  else "Below Basic"

/-- The record returned by `getDomainStats`. -/
structure DomainStats where
  theta : ℝ
  attempts : ℕ
  correct : ℕ
  accuracy : ℝ
  percentile : ℤ
  level : String

/-- Method `getDomainStats(domain)` (`sat-irt-model.js` lines 121-133); in
particular `accuracy: data.attempts > 0 ? (data.correct / data.attempts) * 100 : 0`. -/
noncomputable def getDomainStats (m : SATIRTModel) (domain : String) : Option DomainStats :=
  match m.domains domain with
  | none => none
  | some data =>
    some ⟨data.theta, data.attempts, data.correct,
          if 0 < data.attempts then ((data.correct : ℝ) / data.attempts) * 100 else 0,
          thetaToPercentile data.theta, thetaToLevel data.theta⟩

lemma getDomainStats_some {m : SATIRTModel} {domain : String} {data : DomainState}
    (h : m.domains domain = some data) :
    getDomainStats m domain =
      some ⟨data.theta, data.attempts, data.correct,
            if 0 < data.attempts then ((data.correct : ℝ) / data.attempts) * 100 else 0,
            thetaToPercentile data.theta, thetaToLevel data.theta⟩ := by
  unfold getDomainStats
  rw [h]

/-- Counterexample to C8: after one correct Algebra answer the domain has
`attempts = 1`, `correct = 1`, so the claimed `accuracy = correct/attempts`
would be `1`; the code returns `100` (a percentage). -/
theorem c8_counterexample :
    (getDomainStats (updateAbility initialModel "Algebra" true "M" 1) "Algebra").map
        DomainStats.attempts = some 1 ∧
    (getDomainStats (updateAbility initialModel "Algebra" true "M" 1) "Algebra").map
        DomainStats.correct = some 1 ∧
    (getDomainStats (updateAbility initialModel "Algebra" true "M" 1) "Algebra").map
        DomainStats.accuracy = some 100 ∧
    (100 : ℝ) ≠ 1 / 1 := by
  rw [getDomainStats_some updateAbility_correct_medium]
  norm_num

/-- C8 (amended): for a known domain with `attempts > 0`, the `accuracy`
field of `getDomainStats` equals `(correct / attempts) * 100`, the percentage
rather than the bare fraction of attempts answered correctly. -/
theorem c8_accuracy (m : SATIRTModel) (domain : String) (data : DomainState)
    (h : m.domains domain = some data) (ha : 0 < data.attempts) :
    (getDomainStats m domain).map DomainStats.accuracy =
      some (((data.correct : ℝ) / data.attempts) * 100) := by
  rw [getDomainStats_some h]
  simp [if_pos ha]

/-- Witness for C8 (amended): the accuracy reported after one correct
Algebra answer is `(1 / 1) * 100`. -/
theorem c8_witness :
    (getDomainStats (updateAbility initialModel "Algebra" true "M" 1) "Algebra").map
        DomainStats.accuracy = some ((((1 : ℕ) : ℝ) / ((1 : ℕ) : ℝ)) * 100) :=
  c8_accuracy (updateAbility initialModel "Algebra" true "M" 1) "Algebra"
    ⟨0.15, 1, 1⟩ updateAbility_correct_medium Nat.one_pos

/-- Per-arm bandit statistics, as initialised in `initializeArms`
(`sat-reinforcement-learning.js` lines 62-73). -/
structure ArmState where
  pulls : ℕ
  rewards : ℝ
  alpha : ℝ
  beta : ℝ
  avgReward : ℝ

/-- One entry of `this.questionHistory` (the wall-clock `timestamp` field is
presentation-layer data and is not modelled). -/
structure HistoryEntry where
  domain : String
  correct : Bool
  difficulty : String
  responseTime : ℝ
  reward : ℝ

/-- The mutable state of `SATReinforcementLearning`: the wrapped IRT model,
the per-arm statistics, the bounded question history, and
`strategies.exploration.epsilon`.  The remaining `strategies` fields are
constants (`zpd.enabled = true`, `weaknessFocus`, `thompsonSampling`,
`decayRate`) and are modelled as top-level definitions. -/
structure SATReinforcementLearning where
  irtModel : SATIRTModel
  armStats : String → Option ArmState
  questionHistory : List HistoryEntry
  epsilon : ℝ

/-- Initial value `0.15` of `strategies.exploration.epsilon`. -/
noncomputable def initialEpsilon : ℝ := 0.15

/-- Constant `strategies.exploration.decayRate = 0.995`. -/
noncomputable def decayRate : ℝ := 0.995

/-- Constant `this.maxHistorySize = 100`. -/
def maxHistorySize : ℕ := 100

/-- Method `initializeArms()`: one arm per IRT domain, each starting at
`{ pulls: 0, rewards: 0, alpha: 1, beta: 1, avgReward: 0 }` (the Thompson
prior `alpha = beta = 1`). -/
noncomputable def initializeArms (irt : SATIRTModel) : String → Option ArmState :=
  fun domain => (irt.domains domain).map fun _ => ⟨0, 0, 1, 1, 0⟩

/-- A freshly constructed `SATReinforcementLearning` over a fresh IRT model. -/
noncomputable def initialRL : SATReinforcementLearning :=
  ⟨initialModel, initializeArms initialModel, [], initialEpsilon⟩

/-- The speed bonus computed in `updateModel`
(`sat-reinforcement-learning.js` line 276):
`Math.max(0, 1 - responseTime / 120)` — clamped below at `0` only. -/
noncomputable def speedBonus (responseTime : ℝ) : ℝ := max 0 (1 - responseTime / 120)

/-- The reward computed in `updateModel` (line 277):
`correct ? 0.7 + 0.3 * speedBonus : 0`. -/
noncomputable def reward (correct : Bool) (responseTime : ℝ) : ℝ :=
  if correct then 0.7 + 0.3 * speedBonus responseTime else 0

/-- Method `updateModel(domain, correct, difficulty, responseTime)`
(`sat-reinforcement-learning.js` lines 266-307).  An unknown domain is a
warn-and-return no-op; otherwise the IRT model is updated (with the default
discrimination), the arm's pulls/rewards/avgReward are updated, exactly one
of `alpha`/`beta` is incremented, and the event is appended to the history,
which is trimmed from the front once it exceeds `maxHistorySize`. -/
noncomputable def updateModel (s : SATReinforcementLearning) (domain : String)
    (correct : Bool) (difficulty : String) (responseTime : ℝ) :
    SATReinforcementLearning :=
  match s.armStats domain with
  | none => s
  | some arm =>
    let r := reward correct responseTime
    let pulls := arm.pulls + 1
    let rewards := arm.rewards + r
    let arm2 : ArmState :=
      ⟨pulls, rewards,
       if correct then arm.alpha + 1 else arm.alpha,
       if correct then arm.beta else arm.beta + 1,
       rewards / (pulls : ℝ)⟩
    let hist := s.questionHistory ++ [⟨domain, correct, difficulty, responseTime, r⟩]
    ⟨updateAbility s.irtModel domain correct difficulty defaultDiscrimination,
     fun d => if d = domain then some arm2 else s.armStats d,
     if maxHistorySize < hist.length then hist.drop 1 else hist,
     s.epsilon⟩

lemma updateModel_none {s : SATReinforcementLearning} {domain : String}
    (correct : Bool) (difficulty : String) (responseTime : ℝ)
    (h : s.armStats domain = none) :
    updateModel s domain correct difficulty responseTime = s := by
  unfold updateModel
  rw [h]

lemma updateModel_some {s : SATReinforcementLearning} {domain : String} {arm : ArmState}
    (correct : Bool) (difficulty : String) (responseTime : ℝ)
    (h : s.armStats domain = some arm) :
    updateModel s domain correct difficulty responseTime =
      ⟨updateAbility s.irtModel domain correct difficulty defaultDiscrimination,
       fun d => if d = domain then
          some ⟨arm.pulls + 1, arm.rewards + reward correct responseTime,
                if correct then arm.alpha + 1 else arm.alpha,
                if correct then arm.beta else arm.beta + 1,
                (arm.rewards + reward correct responseTime) / ((arm.pulls + 1 : ℕ) : ℝ)⟩
         else s.armStats d,
       if maxHistorySize <
           (s.questionHistory ++
             [(⟨domain, correct, difficulty, responseTime,
                reward correct responseTime⟩ : HistoryEntry)]).length
         then (s.questionHistory ++
             [(⟨domain, correct, difficulty, responseTime,
                reward correct responseTime⟩ : HistoryEntry)]).drop 1
         else s.questionHistory ++
             [(⟨domain, correct, difficulty, responseTime,
                reward correct responseTime⟩ : HistoryEntry)],
       s.epsilon⟩ := by
  unfold updateModel
  rw [h]

/-- The bandit invariant claimed by the spec: `alpha + beta = pulls + 2` for
every arm. -/
def ArmInvariant (s : SATReinforcementLearning) : Prop :=
  ∀ d arm, s.armStats d = some arm → arm.alpha + arm.beta = (arm.pulls : ℝ) + 2

lemma initialRL_armInvariant : ArmInvariant initialRL := by
  intro d arm h
  simp only [initialRL, initializeArms, Option.map_eq_some'] at h
  obtain ⟨-, -, harm⟩ := h
  rw [← harm]
  norm_num

lemma updateModel_armInvariant {s : SATReinforcementLearning} (hs : ArmInvariant s)
    (domain : String) (correct : Bool) (difficulty : String) (responseTime : ℝ) :
    ArmInvariant (updateModel s domain correct difficulty responseTime) := by
  cases h : s.armStats domain with
  | none =>
    rw [updateModel_none correct difficulty responseTime h]
    exact hs
  | some arm0 =>
    rw [updateModel_some correct difficulty responseTime h]
    intro d arm hd
    simp only at hd
    by_cases hdd : d = domain
    · rw [if_pos hdd] at hd
      cases hd
      have hb := hs domain arm0 h
      cases correct <;> simp only [Bool.false_eq_true, if_pos, if_neg, if_true, if_false] <;>
        push_cast <;> linarith
    · rw [if_neg hdd] at hd
      exact hs d arm hd

/-- A `ResponseEvent`: the arguments of one `updateModel` call. -/
structure ResponseEvent where
  domain : String
  correct : Bool
  difficulty : String
  responseTime : ℝ

/-- Fold a sequence of `updateModel` calls over an RL state. -/
noncomputable def runUpdateModel (s : SATReinforcementLearning)
    (events : List ResponseEvent) : SATReinforcementLearning :=
  events.foldl (fun s e => updateModel s e.domain e.correct e.difficulty e.responseTime) s

lemma runUpdateModel_armInvariant :
    ∀ (events : List ResponseEvent) (s : SATReinforcementLearning), ArmInvariant s →
      ArmInvariant (runUpdateModel s events) := by
  intro events
  induction events with
  | nil => intro s hs; exact hs
  | cons e es ih =>
    intro s hs
    exact ih _ (updateModel_armInvariant hs e.domain e.correct e.difficulty e.responseTime)

/-- C3: from freshly initialized arms, `alpha + beta = pulls + 2` holds for
every arm after every sequence of `updateModel` calls; moreover each recorded
response increments `pulls` by 1 and exactly one of `alpha`/`beta` by 1. -/
theorem c3_arm_invariant :
    (∀ events : List ResponseEvent, ArmInvariant (runUpdateModel initialRL events)) ∧
    (∀ (s : SATReinforcementLearning) (domain : String) (arm : ArmState)
        (correct : Bool) (difficulty : String) (responseTime : ℝ),
      s.armStats domain = some arm →
      ∃ arm2, (updateModel s domain correct difficulty responseTime).armStats domain =
          some arm2 ∧
        arm2.pulls = arm.pulls + 1 ∧
        ((correct = true ∧ arm2.alpha = arm.alpha + 1 ∧ arm2.beta = arm.beta) ∨
         (correct = false ∧ arm2.alpha = arm.alpha ∧ arm2.beta = arm.beta + 1))) := by
  constructor
  · intro events
    exact runUpdateModel_armInvariant events initialRL initialRL_armInvariant
  · intro s domain arm correct difficulty responseTime h
    rw [updateModel_some correct difficulty responseTime h]
    refine ⟨⟨arm.pulls + 1, arm.rewards + reward correct responseTime,
        if correct then arm.alpha + 1 else arm.alpha,
        if correct then arm.beta else arm.beta + 1,
        (arm.rewards + reward correct responseTime) / ((arm.pulls + 1 : ℕ) : ℝ)⟩,
      by simp, rfl, ?_⟩
    cases correct
    · right
      simp
    · left
      simp

lemma initialRL_Algebra_arm : initialRL.armStats "Algebra" = some ⟨0, 0, 1, 1, 0⟩ := by
  simp only [initialRL, initializeArms, initialModel_Algebra, Option.map_some']

/-- Witness for C3: one correct response on Algebra from the fresh state bumps
`pulls` to 1 and `alpha` to 2, leaving `beta` at 1. -/
theorem c3_witness :
    ∃ arm2, (updateModel initialRL "Algebra" true "M" 30).armStats "Algebra" = some arm2 ∧
      arm2.pulls = 0 + 1 ∧
      ((true = true ∧ arm2.alpha = (1 : ℝ) + 1 ∧ arm2.beta = (1 : ℝ)) ∨
       (true = false ∧ arm2.alpha = (1 : ℝ) ∧ arm2.beta = (1 : ℝ) + 1)) :=
  c3_arm_invariant.2 initialRL "Algebra" ⟨0, 0, 1, 1, 0⟩ true "M" 30 initialRL_Algebra_arm

/-- C6: calling `updateAbility` or `updateModel` with a topic outside the
configured universe is a pure no-op: nothing is thrown, no entry is created,
and the whole state (domains, arms, history, epsilon) is unchanged. -/
theorem c6_unknown_topic_noop :
    (∀ (m : SATIRTModel) (domain : String) (correct : Bool) (difficulty : String) (a : ℝ),
      m.domains domain = none → updateAbility m domain correct difficulty a = m) ∧
    (∀ (s : SATReinforcementLearning) (domain : String) (correct : Bool)
        (difficulty : String) (responseTime : ℝ),
      s.armStats domain = none → updateModel s domain correct difficulty responseTime = s) := by
  constructor
  · intro m domain correct difficulty a h
    exact updateAbility_none correct difficulty a h
  · intro s domain correct difficulty responseTime h
    exact updateModel_none correct difficulty responseTime h

/-- Witness for C6: the topic "Chemistry" is not a configured SAT domain, and
both update operations leave the fresh states untouched. -/
theorem c6_witness :
    initialModel.domains "Chemistry" = none ∧
    updateAbility initialModel "Chemistry" true "M" 1 = initialModel ∧
    initialRL.armStats "Chemistry" = none ∧
    updateModel initialRL "Chemistry" true "M" 30 = initialRL := by
  have h1 : initialModel.domains "Chemistry" = none := by
    simp [initialModel, satDomainNames]
  have h2 : initialRL.armStats "Chemistry" = none := by
    simp only [initialRL, initializeArms, h1, Option.map_none']
  exact ⟨h1, c6_unknown_topic_noop.1 initialModel "Chemistry" true "M" 1 h1,
    h2, c6_unknown_topic_noop.2 initialRL "Chemistry" true "M" 30 h2⟩

/-- Method `selectDifficulty(domain)` (`sat-reinforcement-learning.js` lines
168-184), with `strategies.zpd.enabled = true` as set in the constructor and
never mutated: `target = theta + 0.5`; `< -0.5 → E`, `< 0.75 → M`, else `H`. -/
noncomputable def selectDifficulty (irt : SATIRTModel) (domain : String) : String :=
  let theta := getAbility irt domain
  let targetDifficulty := theta + 0.5
  if targetDifficulty < -0.5 then "E"
  else if targetDifficulty < 0.75 then "M"
  else "H"

/-- A question as consumed by `filterQuestions`/`recommendQuestions`:
`questionId`, the domain (`primary_class_cd_desc || domain`), `difficulty`. -/
structure Question where
  questionId : String
  domain : String
  difficulty : String

/-- Method `filterQuestions(questions, domain, difficulty)`
(`sat-reinforcement-learning.js` lines 193-200): exact domain and difficulty
match. -/
def filterQuestions (questions : List Question) (domain difficulty : String) :
    List Question :=
  questions.filter fun q => q.domain == domain && q.difficulty == difficulty

/-- Placeholder question for the (never taken) out-of-range list read. -/
def defaultQuestion : Question := ⟨"", "", ""⟩

/-- One iteration of the loop in `recommendQuestions`
(`sat-reinforcement-learning.js` lines 216-243).  The two `Math.random`-driven
choices are abstracted as oracles: `selectD i` is the domain returned by
`selectDomain()` on draw `i`, and `pick i % available.length` is the uniform
index drawn among the survivors.  The difficulty is the deterministic
ZPD choice.  If there is no candidate, or every candidate id is already in
the batch, the slot is skipped. -/
noncomputable def recommendStep (s : SATReinforcementLearning) (allQuestions : List Question)
    (selectD : ℕ → String) (pick : ℕ → ℕ) (i : ℕ) (recs : List Question) :
    List Question :=
  let domain := selectD i
  let difficulty := selectDifficulty s.irtModel domain
  let candidates := filterQuestions allQuestions domain difficulty
  if 0 < candidates.length then
    let usedIds := recs.map Question.questionId
    let available := candidates.filter fun q => !(usedIds.contains q.questionId)
    if 0 < available.length then
      recs ++ [available.getD (pick i % available.length) defaultQuestion]
    else recs
  else recs

/-- Method `recommendQuestions(allQuestions, count)`
(`sat-reinforcement-learning.js` lines 208-257): `count` loop iterations
accumulating a batch, then `epsilon *= decayRate`.  The returned `reasoning`
and `weaknesses` are presentation strings derived from the same data and are
not modelled. -/
noncomputable def recommendQuestions (s : SATReinforcementLearning)
    (allQuestions : List Question) (count : ℕ) (selectD : ℕ → String)
    (pick : ℕ → ℕ) : SATReinforcementLearning × List Question :=
  ((⟨s.irtModel, s.armStats, s.questionHistory,
      s.epsilon * decayRate⟩ : SATReinforcementLearning),
   (List.range count).foldl (fun recs i => recommendStep s allQuestions selectD pick i recs) [])

lemma getD_mem {α : Type} : ∀ (l : List α) (i : ℕ), i < l.length → ∀ d : α, l.getD i d ∈ l := by
  intro l
  induction l with
  | nil => intro i h d; simp at h
  | cons a t ih =>
    intro i h d
    cases i with
    | zero => exact List.mem_cons_self a t
    | succ j => exact List.mem_cons_of_mem a (ih j (by simpa using h) d)

lemma recommendStep_length (s : SATReinforcementLearning) (allQuestions : List Question)
    (selectD : ℕ → String) (pick : ℕ → ℕ) (i : ℕ) (recs : List Question) :
    (recommendStep s allQuestions selectD pick i recs).length ≤ recs.length + 1 := by
  unfold recommendStep
  dsimp only
  split_ifs
  · simp
  · exact Nat.le_succ _
  · exact Nat.le_succ _

lemma append_available_nodup (recs A : List Question) (k : ℕ)
    (h : (recs.map Question.questionId).Nodup) (h2 : 0 < A.length)
    (hA : ∀ q ∈ A, (!((recs.map Question.questionId).contains q.questionId)) = true) :
    ((recs ++ [A.getD (k % A.length) defaultQuestion]).map Question.questionId).Nodup := by
  have hq : A.getD (k % A.length) defaultQuestion ∈ A :=
    getD_mem A (k % A.length) (Nat.mod_lt k h2) defaultQuestion
  have hid : (A.getD (k % A.length) defaultQuestion).questionId ∉
      recs.map Question.questionId := by
    simpa using hA _ hq
  rw [List.map_append, List.map_singleton, List.nodup_append]
  refine ⟨h, List.nodup_singleton _, ?_⟩
  intro b hb
  simp only [List.mem_singleton]
  intro hba
  exact hid (hba ▸ hb)

lemma recommendStep_nodup (s : SATReinforcementLearning) (allQuestions : List Question)
    (selectD : ℕ → String) (pick : ℕ → ℕ) (i : ℕ) (recs : List Question)
    (h : (recs.map Question.questionId).Nodup) :
    ((recommendStep s allQuestions selectD pick i recs).map Question.questionId).Nodup := by
  unfold recommendStep
  dsimp only
  split_ifs with h1 h2
  · exact append_available_nodup recs _ (pick i) h h2 (fun q hq => (List.mem_filter.mp hq).2)
  · exact h
  · exact h

lemma recommendFold_bounds (s : SATReinforcementLearning) (allQuestions : List Question)
    (selectD : ℕ → String) (pick : ℕ → ℕ) :
    ∀ (idx : List ℕ) (recs : List Question), (recs.map Question.questionId).Nodup →
      ((idx.foldl (fun recs i => recommendStep s allQuestions selectD pick i recs)
          recs).map Question.questionId).Nodup ∧
      (idx.foldl (fun recs i => recommendStep s allQuestions selectD pick i recs)
          recs).length ≤ recs.length + idx.length := by
  intro idx
  induction idx with
  | nil => intro recs h; exact ⟨h, by simp⟩
  | cons j js ih =>
    intro recs h
    obtain ⟨h1, h2⟩ := ih (recommendStep s allQuestions selectD pick j recs)
      (recommendStep_nodup s allQuestions selectD pick j recs h)
    refine ⟨h1, le_trans h2 ?_⟩
    have := recommendStep_length s allQuestions selectD pick j recs
    simp only [List.length_cons]
    omega

lemma recommendStep_empty_filter (s : SATReinforcementLearning)
    (allQuestions : List Question) (selectD : ℕ → String) (pick : ℕ → ℕ) (i : ℕ)
    (recs : List Question)
    (hf : filterQuestions allQuestions (selectD i)
        (selectDifficulty s.irtModel (selectD i)) = []) :
    recommendStep s allQuestions selectD pick i recs = recs := by
  unfold recommendStep
  dsimp only
  rw [hf]
  simp

lemma recommendQuestions_empty_pool (s : SATReinforcementLearning)
    (selectD : ℕ → String) (pick : ℕ → ℕ) :
    ∀ count : ℕ, (recommendQuestions s [] count selectD pick).2 = [] := by
  intro count
  show (List.range count).foldl (fun recs i => recommendStep s [] selectD pick i recs) [] = []
  induction count with
  | zero => simp
  | succ k ihk =>
    rw [List.range_succ, List.foldl_append, ihk]
    simp only [List.foldl_cons, List.foldl_nil]
    exact recommendStep_empty_filter s [] selectD pick k [] rfl

/-- C5: a recommendation batch never exceeds the requested `count`, never
repeats a question id, and a draw with no matching candidate silently skips
its slot (so an empty pool yields an empty batch rather than a failure). -/
theorem c5_recommend_batch :
    (∀ (s : SATReinforcementLearning) (pool : List Question) (count : ℕ)
        (selectD : ℕ → String) (pick : ℕ → ℕ),
      (recommendQuestions s pool count selectD pick).2.length ≤ count ∧
      ((recommendQuestions s pool count selectD pick).2.map Question.questionId).Nodup ∧
      (recommendQuestions s [] count selectD pick).2 = []) ∧
    (∀ (s : SATReinforcementLearning) (allQuestions : List Question)
        (selectD : ℕ → String) (pick : ℕ → ℕ) (i : ℕ) (recs : List Question),
      filterQuestions allQuestions (selectD i)
          (selectDifficulty s.irtModel (selectD i)) = [] →
      recommendStep s allQuestions selectD pick i recs = recs) := by
  constructor
  · intro s pool count selectD pick
    obtain ⟨h1, h2⟩ := recommendFold_bounds s pool selectD pick (List.range count) []
      (by simp)
    exact ⟨by simpa using h2, h1, recommendQuestions_empty_pool s selectD pick count⟩
  · exact recommendStep_empty_filter

/-- Witness for C5: with an empty pool, a slot whose candidate filter is empty
leaves the batch unchanged. -/
theorem c5_witness :
    recommendStep initialRL [] (fun _ => "Algebra") (fun _ => 0) 0 [defaultQuestion] =
      [defaultQuestion] :=
  c5_recommend_batch.2 initialRL [] (fun _ => "Algebra") (fun _ => 0) 0
    [defaultQuestion] rfl

lemma updateModel_epsilon (s : SATReinforcementLearning) (domain : String)
    (correct : Bool) (difficulty : String) (responseTime : ℝ) :
    (updateModel s domain correct difficulty responseTime).epsilon = s.epsilon := by
  cases h : s.armStats domain with
  | none => rw [updateModel_none correct difficulty responseTime h]
  | some arm => rw [updateModel_some correct difficulty responseTime h]

lemma recommendQuestions_epsilon (s : SATReinforcementLearning)
    (allQuestions : List Question) (count : ℕ) (selectD : ℕ → String) (pick : ℕ → ℕ) :
    (recommendQuestions s allQuestions count selectD pick).1.epsilon =
      s.epsilon * decayRate := rfl

/-- An interleaved event against the RL state: either a recorded response
(`updateModel`) or a recommendation batch (`recommendQuestions`). -/
inductive RLEvent where
  | response (e : ResponseEvent)
  | recommend (pool : List Question) (count : ℕ) (selectD : ℕ → String) (pick : ℕ → ℕ)

/-- Apply one `RLEvent` to the state. -/
noncomputable def applyRLEvent (s : SATReinforcementLearning) : RLEvent → SATReinforcementLearning
  | RLEvent.response e => updateModel s e.domain e.correct e.difficulty e.responseTime
  | RLEvent.recommend pool count selectD pick =>
      (recommendQuestions s pool count selectD pick).1

/-- Whether an event is a recommendation batch. -/
def RLEvent.isRecommend : RLEvent → Bool
  | RLEvent.response _ => false
  | RLEvent.recommend _ _ _ _ => true

/-- Fold a sequence of interleaved events over an RL state. -/
noncomputable def runRLEvents (s : SATReinforcementLearning) (events : List RLEvent) :
    SATReinforcementLearning :=
  events.foldl applyRLEvent s

lemma runRLEvents_epsilon :
    ∀ (events : List RLEvent) (s : SATReinforcementLearning),
      (runRLEvents s events).epsilon =
        s.epsilon * decayRate ^ (events.countP RLEvent.isRecommend) := by
  intro events
  induction events with
  | nil => intro s; simp [runRLEvents]
  | cons e es ih =>
    intro s
    have hrun : runRLEvents s (e :: es) = runRLEvents (applyRLEvent s e) es := rfl
    rw [hrun, ih]
    cases e with
    | response ev =>
      have : applyRLEvent s (RLEvent.response ev) =
          updateModel s ev.domain ev.correct ev.difficulty ev.responseTime := rfl
      rw [this, updateModel_epsilon]
      simp [RLEvent.isRecommend, List.countP_cons]
    | recommend pool count selectD pick =>
      have : (applyRLEvent s (RLEvent.recommend pool count selectD pick)).epsilon =
          s.epsilon * decayRate := rfl
      rw [this]
      simp only [List.countP_cons, RLEvent.isRecommend, if_pos]
      rw [pow_succ]
      ring

/-- Counterexample to C4: `updateModel` (a recorded response) leaves epsilon
unchanged at `0.15`, while a `recommendQuestions` call with zero recorded
responses multiplies it by `0.995`. -/
theorem c4_counterexample :
    (updateModel initialRL "Algebra" true "M" 30).epsilon = 0.15 ∧
    (0.15 : ℝ) ≠ 0.15 * 0.995 ∧
    (recommendQuestions initialRL [] 1 (fun _ => "Algebra") (fun _ => 0)).1.epsilon =
      0.15 * 0.995 := by
  refine ⟨?_, by norm_num, rfl⟩
  rw [updateModel_some true "M" 30 initialRL_Algebra_arm]
  exact rfl

/-- C4 (amended): epsilon starts at `0.15` and is multiplied by `0.995` after
every `recommendQuestions` call — not after `updateModel` calls — so it is a
pure function of the number of recommendation batches issued. -/
theorem c4_epsilon_decay (events : List RLEvent) :
    initialRL.epsilon = 0.15 ∧
    (runRLEvents initialRL events).epsilon =
      0.15 * decayRate ^ (events.countP RLEvent.isRecommend) := by
  refine ⟨rfl, ?_⟩
  rw [runRLEvents_epsilon]
  exact rfl

/-- Counterexample to C7: the code computes
`speedBonus = Math.max(0, 1 - responseTime / 120)` with no upper clamp, so at
`responseTime = -120` the speed bonus is `2`, exceeding the claimed bound `1`. -/
theorem c7_counterexample : speedBonus (-120) = 2 ∧ ¬ speedBonus (-120) ≤ 1 := by
  unfold speedBonus
  norm_num [max_def]

/-- C7 (amended): `updateModel` computes
`speedBonus = max(0, 1 − responseTimeSeconds/120)` — clamped below at 0 but
not above at 1; for non-negative response times this coincides with the
claimed `clamp(1 − t/120, 0, 1)` — and adds
`reward = correct ? 0.7 + 0.3·speedBonus : 0` to the arm's rewards. -/
theorem c7_speed_bonus (t : ℝ) :
    speedBonus t = max 0 (1 - t / 120) ∧
    (0 ≤ t → speedBonus t = min 1 (max 0 (1 - t / 120))) ∧
    (∀ correct, reward correct t = if correct then 0.7 + 0.3 * speedBonus t else 0) ∧
    (∀ (s : SATReinforcementLearning) (domain : String) (arm : ArmState)
        (correct : Bool) (difficulty : String),
      s.armStats domain = some arm →
      ∃ arm2, (updateModel s domain correct difficulty t).armStats domain = some arm2 ∧
        arm2.rewards = arm.rewards + reward correct t) := by
  refine ⟨rfl, ?_, fun correct => rfl, ?_⟩
  · intro ht
    have h1 : (1 : ℝ) - t / 120 ≤ 1 := by
      have : 0 ≤ t / 120 := div_nonneg ht (by norm_num)
      linarith
    rw [min_eq_right (max_le (by norm_num) h1)]
    exact rfl
  · intro s domain arm correct difficulty h
    rw [updateModel_some correct difficulty t h]
    exact ⟨⟨arm.pulls + 1, arm.rewards + reward correct t,
            if correct then arm.alpha + 1 else arm.alpha,
            if correct then arm.beta else arm.beta + 1,
            (arm.rewards + reward correct t) / ((arm.pulls + 1 : ℕ) : ℝ)⟩, by simp, rfl⟩

/-- Witness for C7 (amended): at `t = 30` the bonus agrees with the clamped
form, and one correct Algebra response adds its reward to the arm. -/
theorem c7_witness :
    speedBonus 30 = min 1 (max 0 (1 - (30 : ℝ) / 120)) ∧
    (∃ arm2, (updateModel initialRL "Algebra" true "M" 30).armStats "Algebra" =
        some arm2 ∧ arm2.rewards = (0 : ℝ) + reward true 30) :=
  ⟨(c7_speed_bonus 30).2.1 (by norm_num),
   (c7_speed_bonus 30).2.2.2 initialRL "Algebra" ⟨0, 0, 1, 1, 0⟩ true "M"
     initialRL_Algebra_arm⟩

/-- Modelled from the spec: `quickUpdate(skill, correct)` of the
KnowledgeTracer (§4.2), the O(1) online mastery update with per-skill
parameters — `correct → m ← m + (1−m)·learn`, `incorrect → m ← m·(1−slip)`,
clamp to `[0,1]`.  The repository ships only the fixed-parameter variant
`updateMasteryScore` in `docs/BKT_FIREBASE_SUMMARY.md`; the general `learn`
and `slip` parameters come from the spec's `MasteryState.parameters`. -/
noncomputable def quickUpdate (learn slip m : ℝ) (correct : Bool) : ℝ :=
  let newScore := if correct then m + (1 - m) * learn else m * (1 - slip)
  max 0 (min 1 newScore)

/-- Function `updateMasteryScore(skill, correct)` from
`docs/BKT_FIREBASE_SUMMARY.md` (lines 147-163): the simplified Bayesian
update with `learningRate = 0.1`, `slipRate = 0.1`, clamped to `[0,1]`
(`guessRate = 0.2` is declared but unused there). -/
noncomputable def updateMasteryScore (currentScore : ℝ) (correct : Bool) : ℝ :=
  let learningRate := (0.1 : ℝ)
  let slipRate := (0.1 : ℝ)
  let newScore := if correct then currentScore + (1 - currentScore) * learningRate
    else currentScore * (1 - slipRate)
  max 0 (min 1 newScore)

lemma updateMasteryScore_eq_quickUpdate (m : ℝ) (c : Bool) :
    updateMasteryScore m c = quickUpdate 0.1 0.1 m c := rfl

lemma quickUpdate_correct_le {learn slip m : ℝ} (hm1 : m ≤ 1) (hl : 0 ≤ learn) :
    m ≤ quickUpdate learn slip m true := by
  show m ≤ max 0 (min 1 (m + (1 - m) * learn))
  have hx : m ≤ m + (1 - m) * learn :=
    le_add_of_nonneg_right (mul_nonneg (by linarith) hl)
  exact le_trans (le_min hm1 hx) (le_max_right _ _)

lemma quickUpdate_mem_unit (learn slip m : ℝ) (c : Bool) :
    0 ≤ quickUpdate learn slip m c ∧ quickUpdate learn slip m c ≤ 1 := by
  refine ⟨le_max_left _ _, max_le (by norm_num) (min_le_left _ _)⟩

/-- C9: for every starting mastery `m ∈ [0,1]` and every `learn > 0`, the
sequence of mastery values produced by iterating the quick mastery update on
correct answers is monotonically non-decreasing. -/
theorem c9_quickUpdate_monotone (learn slip m : ℝ) (hm0 : 0 ≤ m) (hm1 : m ≤ 1)
    (hl : 0 < learn) :
    Monotone fun n : ℕ => (fun x => quickUpdate learn slip x true)^[n] m := by
  have key : ∀ n : ℕ, 0 ≤ (fun x => quickUpdate learn slip x true)^[n] m ∧
      (fun x => quickUpdate learn slip x true)^[n] m ≤ 1 := by
    intro n
    induction n with
    | zero => exact ⟨hm0, hm1⟩
    | succ k ih =>
      rw [Function.iterate_succ_apply']
      exact quickUpdate_mem_unit learn slip _ true
  refine monotone_nat_of_le_succ fun n => ?_
  rw [Function.iterate_succ_apply']
  exact quickUpdate_correct_le (key n).2 (le_of_lt hl)

/-- Witness for C9: the repository's fixed-parameter `updateMasteryScore`
(`learn = 0.1 > 0`) iterated on correct answers from `m = 0.5` is
monotonically non-decreasing. -/
theorem c9_witness :
    Monotone fun n : ℕ => (fun x => updateMasteryScore x true)^[n] 0.5 :=
  c9_quickUpdate_monotone 0.1 0.1 0.5 (by norm_num) (by norm_num) (by norm_num)
